import Mathlib

/-!
Verification development for the Medical-NLP-Toolkit repository.

The repository's rule engine (src/task1_medical_ner.py, src/task2_sentiment_intent.py,
src/task3_soap_generation.py) is shallowly embedded below.  External NLP collaborators
(the spaCy tokenizer / sentence splitter, the spaCy PhraseMatcher and the transformer
sentiment classifier) are out of scope per the specification; functions that consume
their output take that output as an explicit parameter (a list of labelled phrase-match
spans, a list of sentences, or a classifier function `String -> String x Rat`).
All texts considered are ASCII, so Python's `str.lower` / `str.strip` coincide with the
ASCII models used here.  Python floats are modelled by rationals: the only float
operations in the embedded code are comparisons against literals and `round(x, 3)`,
whose decision structure rationals reproduce.
-/

/-- Mirrors Python's `str.lower()` for ASCII text. -/
def pyLower (s : String) : String := ⟨s.data.map Char.toLower⟩

/-- Membership of a character in Python's default whitespace set
(space, tab, newline, carriage return, vertical tab, form feed),
which is also the ASCII part of the regex class `\s`. -/
def pyWSb (c : Char) : Bool :=
  c == ' ' || c == '\t' || c == '\n' || c == '\r' || c == '\x0b' || c == '\x0c'

/-- Mirrors Python's `str.strip()` (strip whitespace from both ends). -/
def pyStrip (s : String) : String :=
  ⟨((s.data.dropWhile pyWSb).reverse.dropWhile pyWSb).reverse⟩

/-- Mirrors Python's slice `text[:n]` (first `n` characters). -/
def pyTake (n : Nat) (s : String) : String := ⟨s.data.take n⟩

/-- Boolean test that `n` is a prefix of `h` (character lists). -/
def listPref : List Char → List Char → Bool
  | [], _ => true
  | _ :: _, [] => false
  | a :: as, b :: bs => a == b && listPref as bs

/-- Mirrors Python's substring operator `needle in hay`. -/
def strIn (needle hay : String) : Bool :=
  (List.range (hay.data.length + 1)).any (fun i => listPref needle.data (hay.data.drop i))

/-- Length of the run of characters satisfying `p` starting at index `i`. -/
def runLen (p : Char → Bool) (cs : List Char) (i : Nat) : Nat :=
  ((cs.drop i).takeWhile p).length

/-- The substring of `cs` from index `a` (inclusive) to `b` (exclusive), as a string. -/
def sliceStr (cs : List Char) (a b : Nat) : String := ⟨(cs.drop a).take (b - a)⟩

/-- ASCII decimal digit test (regex class `\d` on ASCII text). -/
def isDigitC (c : Char) : Bool := '0' ≤ c && c ≤ '9'

/-- ASCII uppercase letter test (regex class `[A-Z]`). -/
def isUpperA (c : Char) : Bool := 'A' ≤ c && c ≤ 'Z'

/-- ASCII lowercase letter test (regex class `[a-z]`). -/
def isLowerA (c : Char) : Bool := 'a' ≤ c && c ≤ 'z'

/-- Word-character test for regex `\b` boundaries on ASCII text (`[A-Za-z0-9_]`). -/
def isWordC (c : Char) : Bool := isUpperA c || isLowerA c || isDigitC c || c == '_'

/-- Mirrors Python's `sep.join(parts)`. -/
def joinWith (sep : String) (parts : List String) : String := String.intercalate sep parts

/-- Mirrors Python's `str.capitalize()`: first character uppercased, rest lowercased. -/
def pyCapitalize (s : String) : String :=
  match s.data with
  | [] => ""
  | c :: rest => ⟨Char.toUpper c :: rest.map Char.toLower⟩

/-- Floor of a rational as an integer, computed from the reduced fraction. -/
def floorQ (q : ℚ) : ℤ := Int.fdiv q.num (q.den : ℤ)

/-- Round a rational to the nearest integer with ties to even,
the rule used by Python's built-in `round`. -/
def roundHalfEvenZ (q : ℚ) : ℤ :=
  let f := floorQ q
  let r := q - (f : ℚ)
  if r < 1/2 then f
  else if (1 : ℚ)/2 < r then f + 1
  else if f % 2 = 0 then f else f + 1

/-- Mirrors Python's `round(x, 3)` on the rational model of scores. -/
def pyRound3 (q : ℚ) : ℚ := (roundHalfEvenZ (q * 1000) : ℚ) / 1000

/-!
A tiny regex evaluator for the fragment actually used by the repository's pattern
tables: a pattern is a concatenation of groups, each group an ordered list of literal
alternatives (`will (it|this|i) (get better|be okay|recover)` becomes
`[["will "], ["it","this","i"], [" "], ["get better","be okay","recover"]]`).
`re.search` for such a pattern succeeds iff at some start position some choice of
alternatives matches contiguously, which backtracking explores exhaustively.
-/

/-- Concatenation-of-alternation pattern: each group lists its literal alternatives. -/
abbrev GPat := List (List String)

/-- Match the groups of `p` contiguously starting at index `i`. -/
def gmatch : GPat → List Char → Nat → Bool
  | [], _, _ => true
  | g :: gs, cs, i =>
      g.any (fun alt => listPref alt.data (cs.drop i) && gmatch gs cs (i + alt.length))

/-- Mirrors `re.search(p, text) is not None` for a concatenation-of-alternation
pattern: try every start position. -/
def searchG (p : GPat) (cs : List Char) : Bool :=
  (List.range (cs.length + 1)).any (fun i => gmatch p cs i)

/-- Whole-word occurrence of `w` at index `i`: the regex `\b w \b` matches there. -/
def wordAt (w : String) (cs : List Char) (i : Nat) : Bool :=
  listPref w.data (cs.drop i)
    && (i == 0 || !isWordC (cs.getD (i - 1) ' '))
    && (decide (cs.length ≤ i + w.length) || !isWordC (cs.getD (i + w.length) ' '))

/-- Mirrors `re.search(rf"\b{re.escape(w)}\b", text) is not None`. -/
def hasWordB (w : String) (cs : List Char) : Bool :=
  (List.range (cs.length + 1)).any (fun i => wordAt w cs i)

/-!
Python compares strings lexicographically by code point.  Core Lean's `String.ltb`
does not reduce in the kernel, so the embedding carries its own executable
code-point lexicographic comparison together with the order facts needed to reason
about sorting.
-/

/-- Executable code-point lexicographic `≤` on character lists. -/
def listLeb : List Char → List Char → Bool
  | [], _ => true
  | _ :: _, [] => false
  | a :: as, b :: bs => if a < b then true else if b < a then false else listLeb as bs

/-- Executable code-point lexicographic `<` on character lists. -/
def listLtb : List Char → List Char → Bool
  | [], [] => false
  | [], _ :: _ => true
  | _ :: _, [] => false
  | a :: as, b :: bs => if a < b then true else if b < a then false else listLtb as bs

/-- Python's `<=` on strings, as a relation usable by the sorting machinery. -/
def strLeR (a b : String) : Prop := listLeb a.data b.data = true

/-- Python's `<` on strings. -/
def strLtR (a b : String) : Prop := listLtb a.data b.data = true

instance : DecidableRel strLeR := fun _ _ => inferInstanceAs (Decidable (_ = true))

instance : DecidableRel strLtR := fun _ _ => inferInstanceAs (Decidable (_ = true))

theorem listLeb_total : ∀ x y : List Char, listLeb x y = true ∨ listLeb y x = true := by
  intro x
  induction x with
  | nil => intro y; left; rfl
  | cons a as ih =>
    intro y
    cases y with
    | nil => right; rfl
    | cons b bs =>
      rcases lt_trichotomy a b with h | h | h
      · left; simp [listLeb, h]
      · subst h
        rcases ih bs with h2 | h2
        · left; simp [listLeb, lt_irrefl, h2]
        · right; simp [listLeb, lt_irrefl, h2]
      · right; simp [listLeb, h]

theorem listLeb_trans : ∀ x y z : List Char,
    listLeb x y = true → listLeb y z = true → listLeb x z = true := by
  intro x
  induction x with
  | nil => intro y z _ _; rfl
  | cons a as ih =>
    intro y z hxy hyz
    cases y with
    | nil => simp [listLeb] at hxy
    | cons b bs =>
      cases z with
      | nil => simp [listLeb] at hyz
      | cons c cs =>
        simp only [listLeb] at hxy hyz ⊢
        by_cases hab : a < b
        · by_cases hbc : b < c
          · simp [lt_trans hab hbc]
          · by_cases hcb : c < b
            · simp [hbc, hcb] at hyz
            · have hbc' : b = c := le_antisymm (not_lt.mp hcb) (not_lt.mp hbc)
              subst hbc'
              simp [hab]
        · by_cases hba : b < a
          · simp [hab, hba] at hxy
          · have hab' : a = b := le_antisymm (not_lt.mp hba) (not_lt.mp hab)
            subst hab'
            simp only [lt_irrefl, if_false] at hxy
            by_cases hac : a < c
            · simp [hac]
            · by_cases hca : c < a
              · simp [hac, hca] at hyz
              · have hac' : a = c := le_antisymm (not_lt.mp hca) (not_lt.mp hac)
                subst hac'
                simp only [lt_irrefl, if_false] at hyz ⊢
                exact ih bs cs hxy hyz

theorem listLeb_antisymm : ∀ x y : List Char,
    listLeb x y = true → listLeb y x = true → x = y := by
  intro x
  induction x with
  | nil =>
    intro y _ hyx
    cases y with
    | nil => rfl
    | cons b bs => simp [listLeb] at hyx
  | cons a as ih =>
    intro y hxy hyx
    cases y with
    | nil => simp [listLeb] at hxy
    | cons b bs =>
      simp only [listLeb] at hxy hyx
      by_cases hab : a < b
      · simp [lt_asymm hab, hab] at hyx
      · by_cases hba : b < a
        · simp [hab, hba] at hxy
        · have hab' : a = b := le_antisymm (not_lt.mp hba) (not_lt.mp hab)
          subst hab'
          simp only [lt_irrefl, if_false] at hxy hyx
          rw [ih bs hxy hyx]

instance : IsTotal String strLeR := ⟨fun a b => listLeb_total a.data b.data⟩

instance : IsTrans String strLeR := ⟨fun a b c => listLeb_trans a.data b.data c.data⟩

instance : IsAntisymm String strLeR :=
  ⟨fun a b h h' => by
    cases a with
    | mk da => cases b with
      | mk db => exact congrArg String.mk (listLeb_antisymm da db h h')⟩

theorem listLtb_of_leb_of_ne : ∀ x y : List Char,
    listLeb x y = true → x ≠ y → listLtb x y = true := by
  intro x
  induction x with
  | nil =>
    intro y _ hne
    cases y with
    | nil => exact absurd rfl hne
    | cons b bs => rfl
  | cons a as ih =>
    intro y hxy hne
    cases y with
    | nil => simp [listLeb] at hxy
    | cons b bs =>
      simp only [listLeb] at hxy
      simp only [listLtb]
      by_cases hab : a < b
      · simp [hab]
      · by_cases hba : b < a
        · simp [hab, hba] at hxy
        · have hab' : a = b := le_antisymm (not_lt.mp hba) (not_lt.mp hab)
          subst hab'
          simp only [lt_irrefl, if_false] at hxy ⊢
          exact ih bs hxy (fun h => hne (by rw [h]))

/-- Mirrors Python's `sorted(list(set(xs)))` for a list of strings: duplicates
collapse and the result is in code-point lexicographic order. -/
def sortedSet (l : List String) : List String := List.insertionSort strLeR l.dedup

theorem sortedSet_sorted_le (l : List String) : (sortedSet l).Sorted strLeR :=
  List.sorted_insertionSort strLeR l.dedup

theorem sortedSet_nodup (l : List String) : (sortedSet l).Nodup :=
  (List.perm_insertionSort strLeR l.dedup).nodup_iff.mpr l.nodup_dedup

theorem sortedSet_sorted_lt (l : List String) : (sortedSet l).Sorted strLtR := by
  have hand := List.Pairwise.and (sortedSet_sorted_le l) (sortedSet_nodup l)
  exact hand.imp (fun {a b} hp =>
    listLtb_of_leb_of_ne a.data b.data hp.1
      (fun hd => hp.2 (by cases a; cases b; exact congrArg String.mk hd)))

theorem sortedSet_perm_inv (l l' : List String) (h : List.Perm l l') :
    sortedSet l = sortedSet l' := by
  refine List.eq_of_perm_of_sorted ?_ (List.sorted_insertionSort _ _)
    (List.sorted_insertionSort _ _)
  exact ((List.perm_insertionSort _ _).trans h.dedup).trans
    (List.perm_insertionSort _ _).symm


/-!
Task 1 (src/task1_medical_ner.py): entity extraction, patient/temporal extraction
and the structured summary.  `extract_entities` consumes the output of the external
spaCy PhraseMatcher (a list of labelled spans) and sentence splitter (a list of
sentences); those collaborator outputs are parameters of the embedding.
-/

/-- Labels of the phrase-matcher patterns registered in `_setup_medical_patterns`
(src/task1_medical_ner.py lines 69-72). -/
inductive MatchLabel where
  | SYMPTOM
  | TREATMENT
  | DIAGNOSIS
  | BODY_PART
deriving DecidableEq, Repr

/-- Result record of `extract_entities` (src/task1_medical_ner.py lines 74-113):
four sorted duplicate-free lists. -/
structure EntitySet where
  symptoms : List String
  treatments : List String
  diagnosis : List String
  prognosis : List String
deriving DecidableEq, Repr

/-- Keywords that put a sentence into the prognosis set
(src/task1_medical_ner.py line 108). -/
def prognosisKeywords : List String := ["recovery", "prognosis", "expect", "improve", "heal"]

/-- Mirrors `MedicalNER.extract_entities` (src/task1_medical_ner.py lines 74-113).
`matches` is the PhraseMatcher output (label and span text per match, in the order
the matcher reports them) and `sents` the sentence splitter output.  Each matched
span is lower-cased and added to its category set (`BODY_PART` matches fall through
the `if`/`elif` chain and are dropped, as in the source); a sentence containing a
prognosis keyword is stripped and added to the prognosis set; each Python set is
then returned as `sorted(list(...))`. -/
def extractEntities (spans : List (MatchLabel × String)) (sents : List String) : EntitySet :=
  let syms := spans.filterMap
    (fun m => if m.1 = MatchLabel.SYMPTOM then some (pyLower m.2) else none)
  let trts := spans.filterMap
    (fun m => if m.1 = MatchLabel.TREATMENT then some (pyLower m.2) else none)
  let dias := spans.filterMap
    (fun m => if m.1 = MatchLabel.DIAGNOSIS then some (pyLower m.2) else none)
  let prog := (sents.filter
    (fun s => prognosisKeywords.any (fun k => strIn k (pyLower s)))).map pyStrip
  { symptoms := sortedSet syms
    treatments := sortedSet trts
    diagnosis := sortedSet dias
    prognosis := sortedSet prog }

/-- End position (exclusive) of a `[A-Z][a-z]+` match starting at `k`, if any.
Both character classes are maximal-munch here; since what follows in the patterns
that use this is `\s`-or-end, no backtracking into these runs can succeed. -/
def capWordEnd (cs : List Char) (k : Nat) : Option Nat :=
  if isUpperA (cs.getD k ' ') then
    let l := runLen isLowerA cs (k + 1)
    if l = 0 then none else some (k + 1 + l)
  else none

/-- Attempt of the first name pattern
`(Ms\.|Mr\.|Mrs\.)\s+([A-Z][a-z]+(?:\s+[A-Z][a-z]+)?)`
(src/task1_medical_ner.py line 126) at start position `i`, returning the two
capture groups.  The three title alternatives are mutually exclusive at any one
position; `\s+` is followed by `[A-Z]` and `[a-z]+` by `\s`-or-end, so the greedy
runs admit no useful backtracking; the optional second capitalized word is taken
greedily when present. -/
def matchTitleAt (cs : List Char) (i : Nat) : Option (String × String) :=
  let title? : Option String :=
    if listPref "Ms.".data (cs.drop i) then some "Ms."
    else if listPref "Mr.".data (cs.drop i) then some "Mr."
    else if listPref "Mrs.".data (cs.drop i) then some "Mrs."
    else none
  match title? with
  | none => none
  | some t =>
    let j := i + t.length
    let w := runLen pyWSb cs j
    if w = 0 then none else
    match capWordEnd cs (j + w) with
    | none => none
    | some m =>
      let w2 := runLen pyWSb cs m
      let q := if w2 = 0 then m else
        match capWordEnd cs (m + w2) with
        | some e => e
        | none => m
      some (t, sliceStr cs (j + w) q)

/-- Mirrors `re.search` for the title pattern: leftmost start position wins. -/
def searchTitle (cs : List Char) : Option (String × String) :=
  (List.range (cs.length + 1)).findSome? (matchTitleAt cs)

/-- End position after greedily absorbing repetitions of `(?:\s+[A-Z][a-z]+)`
starting at `pos` (each repetition advances by at least two characters, so
`cs.length` steps of fuel suffice). -/
def myNameRepEnd (cs : List Char) : Nat → Nat → Nat
  | 0, pos => pos
  | fuel + 1, pos =>
    let w := runLen pyWSb cs pos
    if w = 0 then pos else
    match capWordEnd cs (pos + w) with
    | some e => myNameRepEnd cs fuel e
    | none => pos

/-- Attempt of the second name pattern
`My name is\s+([A-Z][a-z]+(?:\s+[A-Z][a-z]+)+)`
(src/task1_medical_ner.py line 127) at start position `i`: the literal prefix
(10 characters), whitespace, a first capitalized word, then at least one further
`\s+`-separated capitalized word, all greedy. -/
def matchMyNameAt (cs : List Char) (i : Nat) : Option String :=
  if listPref "My name is".data (cs.drop i) then
    let j := i + 10
    let w := runLen pyWSb cs j
    if w = 0 then none else
    match capWordEnd cs (j + w) with
    | none => none
    | some m =>
      let e := myNameRepEnd cs cs.length m
      if e = m then none else some (sliceStr cs (j + w) e)
  else none

/-- First name pattern as used by the extraction loop: on a match the name is
formatted as `f"{m.group(1)} {m.group(2)}".strip()`
(src/task1_medical_ner.py line 133). -/
def titleMatcher (text : String) : Option String :=
  (searchTitle text.data).map (fun r => pyStrip (r.1 ++ " " ++ r.2))

/-- Second name pattern as used by the extraction loop: on a match the name is
`m.group(1).strip()` (src/task1_medical_ner.py line 135). -/
def myNameMatcher (text : String) : Option String :=
  ((List.range (text.data.length + 1)).findSome? (matchMyNameAt text.data)).map pyStrip

/-- Mirrors the `for pattern in name_patterns: ... break` loop of
`extract_patient_info` (src/task1_medical_ner.py lines 129-136): the first
pattern that matches anywhere wins and later patterns are not consulted;
`None` when no pattern matches. -/
def extractPatientName (text : String) : Option String :=
  [titleMatcher, myNameMatcher].findSome? (fun p => p text)

/-- Unit alternation of the duration regex
`(\d+)\s+(week|weeks|month|months|day|days|session|sessions)`
(src/task1_medical_ner.py line 194), in source order. -/
def durUnits : List String := ["week", "weeks", "month", "months", "day", "days",
  "session", "sessions"]

/-- Attempt of the duration regex at start position `i` of the lowered text:
a maximal digit run, at least one whitespace character (maximal run), then the
first unit alternative that matches (regex alternation is first-match, so the
text `weeks` records the unit `week`).  Returns the two capture groups and the
end position of the whole match. -/
def durMatchAt (cs : List Char) (i : Nat) : Option (String × String × Nat) :=
  let d := runLen isDigitC cs i
  if d = 0 then none else
  let j := i + d
  let w := runLen pyWSb cs j
  if w = 0 then none else
  match durUnits.find? (fun u => listPref u.data (cs.drop (j + w))) with
  | some u => some (sliceStr cs i j, u, j + w + u.length)
  | none => none

/-- Scanning loop of `re.findall` for the duration regex: try each start
position left to right, and resume after the end of each match.  Fuel decreases
every step while the position strictly increases, so `cs.length` fuel suffices. -/
def findAllDurGo (cs : List Char) : Nat → Nat → List (String × String)
  | 0, _ => []
  | fuel + 1, i =>
    if cs.length ≤ i then []
    else
      match durMatchAt cs i with
      | some (n, u, e) => (n, u) :: findAllDurGo cs fuel e
      | none => findAllDurGo cs fuel (i + 1)

/-- Mirrors `re.findall(duration_pattern, text.lower())`
(src/task1_medical_ner.py line 195): all non-overlapping matches, left to right. -/
def findAllDur (cs : List Char) : List (String × String) := findAllDurGo cs cs.length 0

/-- Mirrors the list comprehension `f"{num} {unit}"`
(src/task1_medical_ner.py line 198). -/
def fmtDur (p : String × String) : String := p.1 ++ " " ++ p.2

/-- Unit alternation of the timeframe regexes (no `session` here),
src/task1_medical_ner.py lines 202-203. -/
def tfUnits : List String := ["week", "weeks", "month", "months", "day", "days"]

/-- Attempt of `lit\s+(\d+)\s+(week|weeks|month|months|day|days)` at position `i`,
returning the two capture groups. -/
def litNumUnitAt (lit : String) (cs : List Char) (i : Nat) : Option (String × String) :=
  if listPref lit.data (cs.drop i) then
    let j := i + lit.length
    let w := runLen pyWSb cs j
    if w = 0 then none else
    let k := j + w
    let d := runLen isDigitC cs k
    if d = 0 then none else
    let m := k + d
    let w2 := runLen pyWSb cs m
    if w2 = 0 then none else
    let p := m + w2
    match tfUnits.find? (fun u => listPref u.data (cs.drop p)) with
    | some u => some (sliceStr cs k m, u)
    | none => none
  else none

/-- Mirrors `re.search` for a `lit\s+(\d+)\s+(unit)` pattern on the lowered text. -/
def searchLitNumUnit (lit : String) (cs : List Char) : Option (String × String) :=
  (List.range (cs.length + 1)).findSome? (litNumUnitAt lit cs)

/-- Result record of `extract_temporal_info` (src/task1_medical_ner.py
lines 189-219); a `none` field models an absent dictionary key. -/
structure TemporalInfo where
  treatment_duration : Option (List String)
  timeframe : Option String
  current_status : Option String
deriving DecidableEq, Repr

/-- Mirrors `MedicalNER.extract_temporal_info` (src/task1_medical_ner.py
lines 189-219): `treatment_duration` collects all duration matches (key absent
when there are none); `timeframe` stops at the first of the two patterns
`within ...` then `in ...` that matches; `current_status` is the
`occasional` / `no longer`-`resolved` / `still`-`continuing` priority chain. -/
def extractTemporalInfo (text : String) : TemporalInfo :=
  let tl := pyLower text
  let durs := findAllDur tl.data
  { treatment_duration := if durs = [] then none else some (durs.map fmtDur)
    timeframe :=
      match searchLitNumUnit "within" tl.data with
      | some r => some (r.1 ++ " " ++ r.2)
      | none =>
        match searchLitNumUnit "in" tl.data with
        | some r => some (r.1 ++ " " ++ r.2)
        | none => none
    current_status :=
      if strIn "occasional" tl then some "Occasional symptoms"
      else if strIn "no longer" tl || strIn "resolved" tl then some "Resolved"
      else if strIn "still" tl || strIn "continuing" tl then some "Ongoing"
      else none }


/-- Mirrors `MedicalNER._format_symptoms` (src/task1_medical_ner.py lines 259-277):
the three context rules seed the list, then each raw symptom that is not the bare
word `pain`/`ache` and is not already a substring of the space-joined, lowered list
built so far is appended capitalized; default `['Not specified']`. -/
def formatSymptoms (symptoms : List String) (text : String) : List String :=
  let tl := pyLower text
  let base :=
    (if strIn "neck" tl && symptoms.any (fun s => strIn "pain" s || strIn "ache" s)
      then ["Neck pain"] else [])
    ++ (if strIn "back" tl && symptoms.any (fun s => strIn "pain" s || strIn "ache" s)
      then ["Back pain"] else [])
    ++ (if strIn "head" tl && strIn "impact" tl then ["Head impact"] else [])
  let formatted := symptoms.foldl
    (fun acc s =>
      if !(s == "pain" || s == "ache") && !(strIn s (pyLower (joinWith " " acc)))
      then acc ++ [pyCapitalize s] else acc)
    base
  if formatted = [] then ["Not specified"] else formatted

/-- Mirrors `MedicalNER._format_diagnosis` (src/task1_medical_ner.py lines 279-285);
the `text` argument is accepted and unused, as in the source. -/
def formatDiagnosis (diagnoses : List String) (text : String) : String :=
  let _ := text
  if strIn "whiplash" (joinWith " " diagnoses) then "Whiplash injury"
  else if diagnoses ≠ [] then joinWith ", " (diagnoses.map pyCapitalize)
  else "Not specified"

/-- Mirrors `MedicalNER._format_treatment` (src/task1_medical_ner.py lines 287-304):
a physiotherapy entry (preferring the first duration entry mentioning `session`),
then a painkillers entry, default `['Not specified']`. -/
def formatTreatment (treatments : List String) (temporal : TemporalInfo) : List String :=
  let physio :=
    if treatments.any (fun t => strIn "physio" t) then
      let duration := temporal.treatment_duration.getD []
      match duration.filter (fun d => strIn "session" d) with
      | d :: _ => [d ++ " of physiotherapy"]
      | [] => ["Physiotherapy"]
    else []
  let pk :=
    if treatments.any (fun t => strIn "painkiller" t || strIn "analgesic" t)
    then ["Painkillers"] else []
  let formatted := physio ++ pk
  if formatted = [] then ["Not specified"] else formatted

/-- Mirrors `MedicalNER._extract_current_status` (src/task1_medical_ner.py
lines 306-317). -/
def extractCurrentStatus (text : String) : String :=
  let tl := pyLower text
  if strIn "occasional" tl && (strIn "pain" tl || strIn "ache" tl)
    then "Occasional backache"
  else if strIn "better" tl || strIn "improving" tl then "Improving"
  else if strIn "resolved" tl || strIn "no longer" tl then "Resolved"
  else "Under observation"

/-- Mirrors `MedicalNER._extract_prognosis` (src/task1_medical_ner.py
lines 340-356), the rule-based fallback. -/
def extractPrognosisRule (text : String) : String :=
  let tl := pyLower text
  if strIn "full recovery" tl then
    if strIn "six months" tl then "Full recovery expected within six months"
    else
      match searchLitNumUnit "within" tl.data with
      | some r => "Full recovery expected within " ++ r.1 ++ " " ++ r.2
      | none => "Full recovery expected"
  else if strIn "good" tl && strIn "progress" tl then "Good prognosis"
  else "Not specified"

/-- Mirrors `MedicalNER._format_prognosis` (src/task1_medical_ner.py
lines 319-338): the first prognosis sentence containing `recovery`/`expect`,
else the first prognosis sentence, else the rule-based fallback. -/
def formatPrognosis (progs : List String) (text : String) : String :=
  match progs with
  | [] => extractPrognosisRule text
  | p :: _ =>
    match progs.find? (fun q => strIn "recovery" (pyLower q) || strIn "expect" (pyLower q)) with
    | some q => q
    | none => p

/-- Output record of `generate_structured_summary` (src/task1_medical_ner.py
lines 221-257).  `Patient_Name` is an `Option` because the source's
`patient_info.get('patient_name', 'Unknown')` returns the stored value, which is
`None` when no name pattern matched: `extract_patient_info` always stores the
`patient_name` key, so the `'Unknown'` default of `.get` is dead code. -/
structure StructuredSummary where
  Patient_Name : Option String
  Symptoms : List String
  Diagnosis : String
  Treatment : List String
  Current_Status : String
  Prognosis : String
deriving DecidableEq, Repr

/-- Mirrors `MedicalNER.generate_structured_summary` (src/task1_medical_ner.py
lines 221-257), with the PhraseMatcher spans and sentence list of the underlying
`extract_entities` call passed explicitly. -/
def generateStructuredSummary (spans : List (MatchLabel × String)) (sents : List String)
    (conversation : String) : StructuredSummary :=
  let patientName := extractPatientName conversation
  let entities := extractEntities spans sents
  let temporal := extractTemporalInfo conversation
  { Patient_Name := patientName
    Symptoms := formatSymptoms entities.symptoms conversation
    Diagnosis := formatDiagnosis entities.diagnosis conversation
    Treatment := formatTreatment entities.treatments temporal
    Current_Status := extractCurrentStatus conversation
    Prognosis := formatPrognosis entities.prognosis conversation }


/-!
Task 2 (src/task2_sentiment_intent.py): sentiment mapping and intent detection.
The transformer sentiment classifier is an external collaborator; `analyzeSentiment`
takes it as a function from the (truncated) text to a raw label and score.
Every intent / negation regex in the source is a concatenation of literal
alternations, so `GPat` / `searchG` capture `re.search` for them exactly.
-/

/-- Intent pattern table of `_setup_intent_patterns`
(src/task2_sentiment_intent.py lines 23-74), in declaration order. -/
def intentCategories : List (String × List GPat) :=
  [("Seeking reassurance",
    [[["will "], ["it", "this", "i"], [" "], ["get better", "be okay", "recover"]],
     [["worried", "concern", "anxious", "nervous"], [" about"]],
     [["should i "], ["worry", "be concerned"]],
     [["is "], ["it", "this"], [" "], ["normal", "serious"]],
     [["will "], ["it", "this"], [" affect me"]],
     [["do i need to worry"]]]),
   ("Reporting symptoms",
    [[["i have", "i feel", "i\x27m experiencing", "i get"]],
     [["pain", "hurt", "ache", "discomfort", "stiffness"]],
     [["my "], ["neck", "back", "head", "spine"], [" "], ["hurts", "aches"]],
     [["trouble "], ["sleeping", "moving", "walking"]],
     [["it "], ["hurts", "aches"], [" when"]]]),
   ("Expressing concern",
    [[["worried", "concerned", "anxious", "nervous", "scared"]],
     [["what if"]],
     [["i\x27m afraid"]],
     [["bothers me"]],
     [["makes me "], ["worry", "nervous"]]]),
   ("Seeking advice",
    [[["what "], ["should", "can", "could"], [" i"]],
     [["how "], ["do", "can", "should"], [" i"]],
     [["is there anything i "], ["can", "should"]],
     [["what do you "], ["recommend", "suggest", "advise"]],
     [["should i "], ["take", "do", "avoid"]]]),
   ("Expressing gratitude",
    [[["thank you"]], [["thanks"]], [["appreciate"]], [["grateful"]], [["helpful"]]]),
   ("Describing improvement",
    [[["better", "improving", "getting better"]],
     [["not as "], ["bad", "painful"]],
     [["less "], ["pain", "discomfort"]],
     [["starting to "], ["feel better", "improve"]]]),
   ("Describing history",
    [[["it was", "it happened", "i was"]],
     [["last", "on"], [" "], ["week", "month", "year", "september", "january"]],
     [["i went to"]],
     [["they "], ["told", "said", "gave"], [" me"]]])]

/-- Per-category scoring loop of `detect_intent` (src/task2_sentiment_intent.py
lines 199-205): one point per pattern whose `re.search` succeeds on the lowered
text, regardless of occurrence count. -/
def intentScores (cs : List Char) : List (String × Nat) :=
  intentCategories.map
    (fun c => (c.1, c.2.foldl (fun s p => if searchG p cs then s + 1 else s) 0))

/-- Python's `max(xs, key=f)` for a nonempty list `x :: xs`: the running best is
replaced only on a strictly greater key, so the first element attaining the
maximum wins. -/
def pyMaxBy (f : α → Nat) (x : α) (xs : List α) : α :=
  xs.foldl (fun b y => if f y > f b then y else b) x

/-- Maximum of a list of naturals (Python's `max` over dict values, with 0 for
the impossible empty case). -/
def listMaxNat (l : List Nat) : Nat := l.foldl Nat.max 0

/-- Mirrors `SentimentIntentAnalyzer.detect_intent` (src/task2_sentiment_intent.py
lines 186-211): score every category, return the first-declared category with the
maximum score if that maximum is positive, else `General conversation`. -/
def detectIntent (text : String) : String :=
  let scores := intentScores (pyLower text).data
  match scores with
  | [] => "General conversation"
  | s :: rest =>
    if listMaxNat (scores.map Prod.snd) > 0 then (pyMaxBy Prod.snd s rest).1
    else "General conversation"

/-- Specification-side selection for `detect_intent`: the first category (in
declaration order) whose score equals the maximum score. -/
def specSelect (scores : List (String × Nat)) : String :=
  match scores.find? (fun s => s.2 == listMaxNat (scores.map Prod.snd)) with
  | some s => s.1
  | none => "General conversation"

/-- Anxiety lexicon of `_map_to_medical_sentiment`
(src/task2_sentiment_intent.py line 127), matched as whole words. -/
def anxietyWords : List String :=
  ["worried", "concern", "concerned", "anxious", "nervous", "scared", "afraid"]

/-- Target alternation shared by the five negation patterns
(src/task2_sentiment_intent.py lines 131-137). -/
def negAlts : List String := ["worried", "concerned", "anxious", "nervous", "scared", "afraid"]

/-- Negation patterns of `_map_to_medical_sentiment`
(src/task2_sentiment_intent.py lines 131-137). -/
def negPatterns : List GPat :=
  [[["not "], negAlts],
   [["no longer "], negAlts],
   [["hardly "], negAlts],
   [["doesn\x27t make me "], negAlts],
   [["does not make me "], negAlts]]

/-- Reassurance lexicon (src/task2_sentiment_intent.py line 143), matched as
whole words. -/
def reassuranceWords : List String :=
  ["better", "good", "relief", "thank", "appreciate", "helpful", "manageable",
   "under control"]

/-- Recovery/normalcy phrases (src/task2_sentiment_intent.py lines 147-169),
matched as plain substrings. -/
def recoveryPhrases : List String :=
  ["back to my usual routine", "back to my routine", "back to normal",
   "returned to normal", "hasn\x27t really stopped me", "hasn\x27t stopped me",
   "didn\x27t really stop me", "didn\x27t stop me", "no longer",
   "able to do everything", "doing everything as usual", "recovered", "improved",
   "improving", "getting better", "better now", "feels fine now", "okay now",
   "normal now", "back at work", "back to work"]

/-- Mirrors `SentimentIntentAnalyzer._map_to_medical_sentiment`
(src/task2_sentiment_intent.py lines 108-184): whole-word anxiety detection,
cancelled entirely by any negation-pattern hit; whole-word reassurance detection;
substring recovery-phrase detection; then the four-step decision chain ending in
the raw-classifier fallbacks. -/
def mapToMedicalSentiment (label : String) (score : ℚ) (text : String) : String :=
  let cs := (pyLower text).data
  let hasAnxiety0 := anxietyWords.any (fun w => hasWordB w cs)
  let hasNegation := negPatterns.any (fun p => searchG p cs)
  let hasAnxiety := hasAnxiety0 && !hasNegation
  let hasReassurance := reassuranceWords.any (fun w => hasWordB w cs)
  let hasRecovery := recoveryPhrases.any (fun ph => strIn ph (pyLower text))
  if hasAnxiety && !hasNegation && !(hasReassurance || hasRecovery) then "Anxious"
  else if hasRecovery || hasReassurance then "Reassured"
  else if label = "NEGATIVE" ∧ mkRat 9 10 < score then "Anxious"
  else if label = "POSITIVE" ∧ mkRat 4 5 < score then "Reassured"
  else "Neutral"

/-- Result record of `analyze_sentiment` (src/task2_sentiment_intent.py
lines 76-106). -/
structure SentimentResult where
  sentiment : String
  confidence : ℚ
  raw_label : String
  raw_score : ℚ
deriving DecidableEq, Repr

/-- Mirrors `SentimentIntentAnalyzer.analyze_sentiment`
(src/task2_sentiment_intent.py lines 76-106): empty or stripped-length-below-3
input short-circuits to the fixed neutral record without consulting the
classifier; otherwise the classifier is called on the first 512 characters and
both `confidence` and `raw_score` are the score rounded to 3 decimals. -/
def analyzeSentiment (classifier : String → String × ℚ) (text : String) : SentimentResult :=
  if text = "" ∨ (pyStrip text).length < 3 then
    { sentiment := "Neutral", confidence := 0, raw_label := "NEUTRAL", raw_score := 0 }
  else
    let r := classifier (pyTake 512 text)
    { sentiment := mapToMedicalSentiment r.1 r.2 text
      confidence := pyRound3 r.2
      raw_label := r.1
      raw_score := pyRound3 r.2 }


/-!
Task 3 (src/task3_soap_generation.py): the SOAP builders needed by the claims —
the Objective section (physical exam gate) and the Assessment diagnosis, which is
compared against the Task-1 summary diagnosis.
-/

/-- Findings list of `SOAPNoteGenerator._extract_physical_exam`
(src/task3_soap_generation.py lines 227-247): the three finding checks run only
inside the `'physical examination' in text or 'examination' in text` gate. -/
def examFindings (text : String) : List String :=
  let tl := pyLower text
  if strIn "physical examination" tl || strIn "examination" tl then
    (if strIn "range of motion" tl || strIn "range of movement" tl
      then ["Full range of motion in cervical and lumbar spine"] else [])
    ++ (if strIn "no tenderness" tl then ["No tenderness on palpation"]
        else if strIn "tenderness" tl then ["Tenderness noted"] else [])
    ++ (if strIn "muscles" tl && strIn "good" tl then ["Muscles in good condition"] else [])
  else []

/-- Mirrors `SOAPNoteGenerator._extract_physical_exam`
(src/task3_soap_generation.py lines 227-247): comma-joined findings, or the fixed
fallback string when the findings list is empty. -/
def extractPhysicalExam (text : String) : String :=
  let findings := examFindings text
  if findings = [] then "Physical examination completed" else joinWith ", " findings

/-- Mirrors `SOAPNoteGenerator._extract_observations`
(src/task3_soap_generation.py lines 249-264). -/
def extractObservations (text : String) : String :=
  let tl := pyLower text
  let obs :=
    (if strIn "normal health" tl then ["Patient appears in normal health"] else [])
    ++ (if strIn "gait" tl then ["Normal gait observed"] else [])
    ++ (if !strIn "distress" tl && strIn "pain" tl then ["No acute distress"] else [])
  if obs = [] then "Patient appears comfortable" else joinWith ", " obs

/-- Mirrors `SOAPNoteGenerator._extract_test_results`
(src/task3_soap_generation.py lines 266-274); `none` models Python's `None`. -/
def extractTestResults (text : String) : Option String :=
  let tl := pyLower text
  if strIn "x-ray" tl then
    if strIn "no x-ray" tl || strIn "didn\x27t do any x-rays" tl
    then some "No X-rays performed"
    else some "X-rays performed"
  else none

/-- Objective section record of `_extract_objective`
(src/task3_soap_generation.py lines 69-91). -/
structure ObjectiveSection where
  Physical_Exam : String
  Observations : String
  Test_Results : String
deriving DecidableEq, Repr

/-- Mirrors `SOAPNoteGenerator._extract_objective`
(src/task3_soap_generation.py lines 69-91): the `Test_Results` field falls back
to `"No tests mentioned"` when `_extract_test_results` returned `None`. -/
def extractObjective (text : String) : ObjectiveSection :=
  { Physical_Exam := extractPhysicalExam text
    Observations := extractObservations text
    Test_Results := (extractTestResults text).getD "No tests mentioned" }

/-- Mirrors `SOAPNoteGenerator._extract_diagnosis`
(src/task3_soap_generation.py lines 277-289), with the PhraseMatcher spans and
sentence list of its internal `extract_entities` call passed explicitly: the
whiplash case checks the additional `back`+`strain` compound condition, and the
empty-diagnosis default is `"Post-traumatic musculoskeletal pain"`. -/
def soapExtractDiagnosis (spans : List (MatchLabel × String)) (sents : List String)
    (text : String) : String :=
  let diagnoses := (extractEntities spans sents).diagnosis
  let tl := pyLower text
  if strIn "whiplash" (joinWith " " diagnoses) then
    if strIn "back" tl && strIn "strain" tl then "Whiplash injury and lower back strain"
    else "Whiplash injury"
  else if diagnoses ≠ [] then joinWith ", " (diagnoses.map pyCapitalize)
  else "Post-traumatic musculoskeletal pain"


/-!
Helper lemmas about the embedded primitives.
-/

theorem listPref_length_le : ∀ n h : List Char, listPref n h = true → n.length ≤ h.length := by
  intro n
  induction n with
  | nil => intro h _; simp
  | cons a as ih =>
    intro h hp
    cases h with
    | nil => simp [listPref] at hp
    | cons b bs =>
      simp only [listPref, Bool.and_eq_true] at hp
      simpa using Nat.succ_le_succ (ih bs hp.2)

theorem listPref_append_drop : ∀ a b h : List Char,
    listPref (a ++ b) h = true → listPref b (h.drop a.length) = true := by
  intro a
  induction a with
  | nil => intro b h hp; simpa using hp
  | cons c cs ih =>
    intro b h hp
    cases h with
    | nil => simp [listPref] at hp
    | cons d ds =>
      simp only [List.cons_append, listPref, Bool.and_eq_true] at hp
      simpa using ih b ds hp.2

/-- Containment of `physical examination` implies containment of `examination`
(the gate of `_extract_physical_exam` collapses to the latter test). -/
theorem strIn_examination_of_physical (s : String)
    (h : strIn "physical examination" s = true) : strIn "examination" s = true := by
  unfold strIn at h ⊢
  rw [List.any_eq_true] at h ⊢
  obtain ⟨i, hmem, hp⟩ := h
  have hsplit : ("physical examination".data) = ("physical ".data ++ "examination".data) := by
    decide
  rw [hsplit] at hp
  have h2 := listPref_append_drop _ _ _ hp
  have hlen := listPref_length_le _ _ hp
  rw [List.length_append] at hlen
  have hdl : (s.data.drop i).length = s.data.length - i := by simp
  have h9 : ("physical " : String).data.length = 9 := rfl
  have h11 : ("examination" : String).data.length = 11 := rfl
  refine ⟨i + "physical ".data.length, ?_, ?_⟩
  · rw [List.mem_range]
    omega
  · rw [List.drop_drop] at h2
    exact h2

theorem pyStrip_empty : pyStrip "" = "" := rfl

theorem foldl_count (q : α → Bool) : ∀ (l : List α) (n : Nat),
    l.foldl (fun s p => if q p then s + 1 else s) n = n + l.countP q := by
  intro l
  induction l with
  | nil => intro n; simp
  | cons a l ih =>
    intro n
    simp only [List.foldl_cons, List.countP_cons, ih]
    by_cases h : q a = true <;> simp [h] <;> try omega

theorem foldl_max_eq : ∀ (l : List Nat) (i : Nat),
    List.foldl Nat.max i l = Nat.max i (List.foldl Nat.max 0 l) := by
  intro l
  induction l with
  | nil => intro i; simp
  | cons a l ih =>
    intro i
    simp only [List.foldl_cons]
    rw [ih (Nat.max i a), ih (Nat.max 0 a)]
    simp only [Nat.max_def]
    split_ifs <;> omega

theorem listMaxNat_cons (a : Nat) (l : List Nat) :
    listMaxNat (a :: l) = Nat.max a (listMaxNat l) := by
  simp only [listMaxNat, List.foldl_cons]
  rw [foldl_max_eq]
  simp only [Nat.max_def]
  split_ifs <;> omega

theorem listMaxNat_eq_zero_iff : ∀ l : List Nat, listMaxNat l = 0 ↔ ∀ a ∈ l, a = 0 := by
  intro l
  induction l with
  | nil => simp [listMaxNat]
  | cons a l ih => rw [listMaxNat_cons, Nat.max_eq_zero_iff, ih, List.forall_mem_cons]

theorem le_listMaxNat_of_mem : ∀ (l : List Nat) (a : Nat), a ∈ l → a ≤ listMaxNat l := by
  intro l
  induction l with
  | nil => intro a ha; simp at ha
  | cons b l ih =>
    intro a ha
    rw [listMaxNat_cons]
    rcases List.mem_cons.mp ha with rfl | ha
    · exact Nat.le_max_left _ _
    · exact le_trans (ih a ha) (Nat.le_max_right _ _)

theorem pyMaxBy_cons (f : α → Nat) (x z : α) (t : List α) :
    pyMaxBy f x (z :: t) = pyMaxBy f (if f z > f x then z else x) t := rfl

theorem pyMaxBy_mem (f : α → Nat) : ∀ (xs : List α) (x : α), pyMaxBy f x xs ∈ x :: xs := by
  intro xs
  induction xs with
  | nil => intro x; simp [pyMaxBy]
  | cons z t ih =>
    intro x
    rw [pyMaxBy_cons]
    by_cases h : f z > f x
    · rw [if_pos h]
      rcases List.mem_cons.mp (ih z) with h2 | h2
      · rw [h2]; simp
      · simp [List.mem_cons.mpr (Or.inr (List.mem_cons.mpr (Or.inr h2)))]
    · rw [if_neg h]
      rcases List.mem_cons.mp (ih x) with h2 | h2
      · rw [h2]; simp
      · simp [List.mem_cons.mpr (Or.inr (List.mem_cons.mpr (Or.inr h2)))]

theorem find_eq_pyMaxBy (f : α → Nat) : ∀ (xs : List α) (x : α),
    (x :: xs).find? (fun y => f y == listMaxNat ((x :: xs).map f)) = some (pyMaxBy f x xs) := by
  intro xs
  induction xs with
  | nil =>
    intro x
    have hM : listMaxNat ([x].map f) = f x := by
      rw [List.map_cons, List.map_nil, listMaxNat_cons]
      simp [listMaxNat]
    simp only [hM]
    simp [List.find?, pyMaxBy]
  | cons z t ih =>
    intro x
    have hMt : listMaxNat ((z :: t).map f) = Nat.max (f z) (listMaxNat (t.map f)) := by
      rw [List.map_cons, listMaxNat_cons]
    have hMxt : listMaxNat ((x :: t).map f) = Nat.max (f x) (listMaxNat (t.map f)) := by
      rw [List.map_cons, listMaxNat_cons]
    have hMx : listMaxNat ((x :: z :: t).map f)
        = Nat.max (f x) (Nat.max (f z) (listMaxNat (t.map f))) := by
      rw [List.map_cons, List.map_cons, listMaxNat_cons, listMaxNat_cons]
    by_cases hzx : f x < f z
    · have hM : listMaxNat ((x :: z :: t).map f) = listMaxNat ((z :: t).map f) := by
        rw [hMx, hMt]
        simp only [Nat.max_def]
        split_ifs <;> omega
      have hxlt : f x < listMaxNat ((x :: z :: t).map f) := by
        rw [hMx]
        have h1 : f z ≤ Nat.max (f z) (listMaxNat (t.map f)) := Nat.le_max_left _ _
        have h2 : Nat.max (f z) (listMaxNat (t.map f))
            ≤ Nat.max (f x) (Nat.max (f z) (listMaxNat (t.map f))) := Nat.le_max_right _ _
        omega
      have hxne : ¬ ((fun y => f y == listMaxNat ((x :: z :: t).map f)) x = true) := by
        intro hc
        exact absurd (eq_of_beq hc) (by omega)
      have hstep : List.find? (fun y => f y == listMaxNat ((x :: z :: t).map f)) (x :: z :: t)
          = List.find? (fun y => f y == listMaxNat ((x :: z :: t).map f)) (z :: t) :=
        List.find?_cons_of_neg _ hxne
      rw [pyMaxBy_cons, if_pos hzx, hstep]
      simp only [hM]
      exact ih z
    · have hM : listMaxNat ((x :: z :: t).map f) = listMaxNat ((x :: t).map f) := by
        rw [hMx, hMxt]
        simp only [Nat.max_def]
        split_ifs <;> omega
      rw [pyMaxBy_cons, if_neg hzx]
      have hIH := ih x
      simp only [← hM] at hIH
      by_cases hx : f x = listMaxNat ((x :: z :: t).map f)
      · have hxt : ((fun y => f y == listMaxNat ((x :: z :: t).map f)) x = true) := beq_of_eq hx
        have hstep : List.find? (fun y => f y == listMaxNat ((x :: z :: t).map f)) (x :: z :: t)
            = some x :=
          List.find?_cons_of_pos _ hxt
        have hstep2 : List.find? (fun y => f y == listMaxNat ((x :: z :: t).map f)) (x :: t)
            = some x :=
          List.find?_cons_of_pos _ hxt
        rw [hstep]
        rw [hstep2] at hIH
        exact hIH
      · have hxle : f x ≤ listMaxNat ((x :: z :: t).map f) := by
          rw [hMx]; exact Nat.le_max_left _ _
        have hxne : ¬ ((fun y => f y == listMaxNat ((x :: z :: t).map f)) x = true) := by
          intro hc
          exact hx (eq_of_beq hc)
        have hzne : ¬ ((fun y => f y == listMaxNat ((x :: z :: t).map f)) z = true) := by
          intro hc
          have := eq_of_beq hc
          omega
        have hstepx : List.find? (fun y => f y == listMaxNat ((x :: z :: t).map f)) (x :: z :: t)
            = List.find? (fun y => f y == listMaxNat ((x :: z :: t).map f)) (z :: t) :=
          List.find?_cons_of_neg _ hxne
        have hstepz : List.find? (fun y => f y == listMaxNat ((x :: z :: t).map f)) (z :: t)
            = List.find? (fun y => f y == listMaxNat ((x :: z :: t).map f)) t :=
          List.find?_cons_of_neg _ hzne
        have hstepx2 : List.find? (fun y => f y == listMaxNat ((x :: z :: t).map f)) (x :: t)
            = List.find? (fun y => f y == listMaxNat ((x :: z :: t).map f)) t :=
          List.find?_cons_of_neg _ hxne
        rw [hstepx, hstepz]
        rw [hstepx2] at hIH
        exact hIH

theorem durMatchAt_oob (cs : List Char) (i : Nat) (h : cs.length ≤ i) :
    durMatchAt cs i = none := by
  have hd : runLen isDigitC cs i = 0 := by
    unfold runLen
    rw [List.drop_eq_nil_of_le h]
    rfl
  simp [durMatchAt, hd]

theorem durMatchAt_lt_end (cs : List Char) (i : Nat) (n u : String) (e : Nat)
    (h : durMatchAt cs i = some (n, u, e)) : i < e := by
  unfold durMatchAt at h
  by_cases hd : runLen isDigitC cs i = 0
  · simp [hd] at h
  · rw [if_neg hd] at h
    by_cases hw : runLen pyWSb cs (i + runLen isDigitC cs i) = 0
    · rw [if_pos hw] at h
      exact absurd h (by simp)
    · rw [if_neg hw] at h
      rcases hfind : durUnits.find? (fun v => listPref v.data
          (cs.drop (i + runLen isDigitC cs i + runLen pyWSb cs (i + runLen isDigitC cs i))))
        with _ | u'
      · rw [hfind] at h
        exact absurd h (by simp)
      · rw [hfind] at h
        have he : i + runLen isDigitC cs i
            + runLen pyWSb cs (i + runLen isDigitC cs i) + u'.length = e := by
          have h2 := Option.some.inj h
          exact congrArg (fun p => p.2.2) h2
        omega

theorem findAllDurGo_empty_iff (cs : List Char) : ∀ (fuel i : Nat), cs.length ≤ fuel + i →
    (findAllDurGo cs fuel i = [] ↔ ∀ j, i ≤ j → durMatchAt cs j = none) := by
  intro fuel
  induction fuel with
  | zero =>
    intro i hle
    simp only [findAllDurGo, true_iff]
    intro j hij
    exact durMatchAt_oob cs j (by omega)
  | succ fuel ih =>
    intro i hle
    simp only [findAllDurGo]
    by_cases hi : cs.length ≤ i
    · rw [if_pos hi]
      constructor
      · intro _ j hij
        exact durMatchAt_oob cs j (by omega)
      · intro _
        rfl
    · rw [if_neg hi]
      rcases hm : durMatchAt cs i with _ | ⟨n, u, e⟩
      · simp only [hm]
        rw [ih (i + 1) (by omega)]
        constructor
        · intro hall j hij
          by_cases hji : j = i
          · rw [hji]; exact hm
          · exact hall j (by omega)
        · intro hall j hij
          exact hall j (by omega)
      · simp only [hm]
        constructor
        · intro hcontra
          exact absurd hcontra (by simp)
        · intro hall
          exact absurd (hall i (le_refl i)) (by simp [hm])

theorem findAllDurGo_head (cs : List Char) : ∀ (fuel i : Nat) (n u : String)
    (rest : List (String × String)), findAllDurGo cs fuel i = (n, u) :: rest →
    ∃ j e, i ≤ j ∧ durMatchAt cs j = some (n, u, e)
      ∧ ∀ k, i ≤ k → k < j → durMatchAt cs k = none := by
  intro fuel
  induction fuel with
  | zero =>
    intro i n u rest h
    simp [findAllDurGo] at h
  | succ fuel ih =>
    intro i n u rest h
    simp only [findAllDurGo] at h
    by_cases hi : cs.length ≤ i
    · rw [if_pos hi] at h
      exact absurd h (by simp)
    · rw [if_neg hi] at h
      rcases hm : durMatchAt cs i with _ | ⟨n', u', e'⟩
      · rw [hm] at h
        obtain ⟨j, e, hij, hmj, hnone⟩ := ih (i + 1) n u rest h
        refine ⟨j, e, by omega, hmj, ?_⟩
        intro k hik hkj
        by_cases hk : k = i
        · rw [hk]; exact hm
        · exact hnone k (by omega) hkj
      · rw [hm] at h
        have h1 : (n', u') = (n, u) := (List.cons.injEq _ _ _ _ ▸ h).1
        have hn : n' = n := congrArg Prod.fst h1
        have hu : u' = u := congrArg Prod.snd h1
        refine ⟨i, e', le_refl i, ?_, ?_⟩
        · rw [← hn, ← hu]; exact hm
        · intro k hik hki
          omega

/-!
Claim theorems.
-/

/-- Claim C1: the record built by `generate_structured_summary` always has exactly
the six documented fields (the `StructuredSummary` record), but the no-null part of
the claim fails on the code: on the transcript `"hello"` (no name pattern, no
matcher span) the `Patient_Name` value is `None` rather than the documented default
`"Unknown"`, because `extract_patient_info` always stores the `patient_name` key
(with value `None`), so `patient_info.get('patient_name', 'Unknown')` never falls
back to its default.  This theorem evaluates the embedded code at the failing
input. -/
theorem C1_patient_name_null :
    (generateStructuredSummary [] ["hello"] "hello").Patient_Name = none
    ∧ extractPatientName "hello" = none :=
  ⟨by decide, by decide⟩

/-- Claim C2 counterexample: on a transcript whose diagnosis set contains
`whiplash` and whose text contains both `back` and `strain`, the SOAP Assessment
diagnosis (`Whiplash injury and lower back strain`) differs from the structured
summary diagnosis (`Whiplash injury`), so the two fields do not agree for every
transcript. -/
theorem C2_counterexample :
    soapExtractDiagnosis [(MatchLabel.DIAGNOSIS, "whiplash")] []
        "my back strain from whiplash"
      ≠ formatDiagnosis
          (extractEntities [(MatchLabel.DIAGNOSIS, "whiplash")] []).diagnosis
          "my back strain from whiplash" := by
  decide

/-- Claim C2 (amended): for the same transcript (same matcher spans, sentences and
text), the SOAP Assessment diagnosis equals the structured-summary diagnosis
whenever the extracted diagnosis set is nonempty and the compound
whiplash-plus-`back`-plus-`strain` case does not hold; the two remaining
divergences are exactly that compound case and the empty-set defaults. -/
theorem C2_diagnosis_agreement (spans : List (MatchLabel × String)) (sents : List String)
    (text : String)
    (hne : (extractEntities spans sents).diagnosis ≠ [])
    (hcomp : ¬(strIn "whiplash" (joinWith " " (extractEntities spans sents).diagnosis) = true
        ∧ strIn "back" (pyLower text) = true ∧ strIn "strain" (pyLower text) = true)) :
    soapExtractDiagnosis spans sents text
      = formatDiagnosis (extractEntities spans sents).diagnosis text := by
  unfold soapExtractDiagnosis formatDiagnosis
  cases hw : strIn "whiplash" (joinWith " " (extractEntities spans sents).diagnosis) with
  | false => simp [hw, hne]
  | true =>
    have hb : (strIn "back" (pyLower text) && strIn "strain" (pyLower text)) = false := by
      cases hb1 : strIn "back" (pyLower text) <;> cases hb2 : strIn "strain" (pyLower text)
        <;> simp_all
    simp [hw, hb]

/-- Claim C2 witness: a concrete transcript (nonempty diagnosis set, no compound
case) on which the two diagnosis fields agree. -/
theorem C2_witness :
    soapExtractDiagnosis [(MatchLabel.DIAGNOSIS, "whiplash")] [] "hello"
      = formatDiagnosis (extractEntities [(MatchLabel.DIAGNOSIS, "whiplash")] []).diagnosis
          "hello" :=
  C2_diagnosis_agreement _ _ _ (by decide) (by decide)

/-- Claim C3 counterexample: on the text `"I am not worried"` (a recognized
negation phrase immediately preceding the only anxiety word) with raw classifier
verdict NEGATIVE at score 0.95, the mapper still returns `Anxious` via the
classifier fallback, so the claim that the label is never `Anxious` is false. -/
theorem C3_counterexample :
    mapToMedicalSentiment "NEGATIVE" (mkRat 19 20) "I am not worried" = "Anxious" := by
  decide

/-- Claim C3 (amended): if the text matches a recognized negation pattern, the
lexicon rules never produce `Anxious`; the result can still be `Anxious` only
through the raw-classifier fallback, i.e. when the raw label is NEGATIVE with
score strictly above 0.9.  Excluding that fallback case, the result is never
`Anxious`. -/
theorem C3_negation_not_anxious (label : String) (score : ℚ) (text : String)
    (hneg : negPatterns.any (fun p => searchG p (pyLower text).data) = true)
    (hfb : ¬(label = "NEGATIVE" ∧ mkRat 9 10 < score)) :
    mapToMedicalSentiment label score text ≠ "Anxious" := by
  unfold mapToMedicalSentiment
  simp only [hneg, Bool.not_true, Bool.and_false, Bool.false_and, Bool.false_eq_true,
    if_false]
  by_cases h1 : (recoveryPhrases.any (fun ph => strIn ph (pyLower text))
      || reassuranceWords.any (fun w => hasWordB w (pyLower text).data)) = true
  · rw [if_pos h1]
    decide
  · rw [if_neg h1, if_neg hfb]
    by_cases h3 : label = "POSITIVE" ∧ mkRat 4 5 < score
    · rw [if_pos h3]
      decide
    · rw [if_neg h3]
      decide

/-- Claim C3 witness: a negated text with a non-fallback classifier verdict is not
mapped to `Anxious`. -/
theorem C3_witness :
    mapToMedicalSentiment "POSITIVE" (mkRat 1 2) "I am not worried" ≠ "Anxious" :=
  C3_negation_not_anxious _ _ _ (by decide) (by decide)

/-- Claim C4: `detect_intent` scores each of the 7 categories by the number of its
patterns that match (one point per pattern, `countP` of a boolean search), returns
`General conversation` exactly when every score is zero, and otherwise returns the
first-declared category attaining the maximum score (`specSelect`, the first list
entry whose score equals the maximum). -/
theorem C4_intent_scoring (text : String) :
    intentScores (pyLower text).data
      = intentCategories.map
          (fun c => (c.1, c.2.countP (fun p => searchG p (pyLower text).data)))
    ∧ (detectIntent text = "General conversation"
        ↔ ∀ s ∈ intentScores (pyLower text).data, s.2 = 0)
    ∧ detectIntent text
        = (if ∀ s ∈ intentScores (pyLower text).data, s.2 = 0 then "General conversation"
           else specSelect (intentScores (pyLower text).data)) := by
  have hsc1 : intentScores (pyLower text).data
      = intentCategories.map
          (fun c => (c.1, c.2.countP (fun p => searchG p (pyLower text).data))) := by
    simp [intentScores, foldl_count]
  have hnames : ∀ s ∈ intentScores (pyLower text).data, s.1 ≠ "General conversation" := by
    intro s hs
    simp only [intentScores, List.mem_map] at hs
    obtain ⟨c, hc, rfl⟩ := hs
    have hall : ∀ d ∈ intentCategories, d.1 ≠ "General conversation" := by
      intro d hd
      simp only [intentCategories, List.mem_cons, List.not_mem_nil, or_false] at hd
      rcases hd with rfl | rfl | rfl | rfl | rfl | rfl | rfl <;> decide
    exact hall c hc
  rcases hsc : intentScores (pyLower text).data with _ | ⟨s0, rest⟩
  · exact absurd hsc (by simp [intentScores, intentCategories])
  have hnames' : ∀ s ∈ s0 :: rest, (s : String × Nat).1 ≠ "General conversation" :=
    hsc ▸ hnames
  have hdet : detectIntent text
      = (if listMaxNat ((s0 :: rest).map Prod.snd) > 0
         then (pyMaxBy Prod.snd s0 rest).1 else "General conversation") := by
    simp only [detectIntent, hsc]
  have hzero_iff : (∀ s ∈ s0 :: rest, (s : String × Nat).2 = 0)
      ↔ listMaxNat ((s0 :: rest).map Prod.snd) = 0 := by
    rw [listMaxNat_eq_zero_iff]
    constructor
    · intro hz a ha
      obtain ⟨s, hsmem, rfl⟩ := List.mem_map.mp ha
      exact hz s hsmem
    · intro hz s hsmem
      exact hz s.2 (List.mem_map.mpr ⟨s, hsmem, rfl⟩)
  have hsel : specSelect (s0 :: rest) = (pyMaxBy Prod.snd s0 rest).1 := by
    simp only [specSelect, find_eq_pyMaxBy Prod.snd rest s0]
  have h3 : detectIntent text
      = (if ∀ s ∈ s0 :: rest, (s : String × Nat).2 = 0 then "General conversation"
         else specSelect (s0 :: rest)) := by
    by_cases hz : ∀ s ∈ s0 :: rest, (s : String × Nat).2 = 0
    · rw [hdet, hzero_iff.mp hz, if_pos hz]
      simp
    · have hmz : listMaxNat ((s0 :: rest).map Prod.snd) ≠ 0 :=
        fun hc => hz (hzero_iff.mpr hc)
      rw [hdet, if_neg hz, if_pos (by omega), hsel]
  refine ⟨hsc ▸ hsc1, ?_, h3⟩
  constructor
  · intro hgc
    by_contra hz
    rw [h3, if_neg hz, hsel] at hgc
    have hmem : pyMaxBy Prod.snd s0 rest ∈ s0 :: rest := pyMaxBy_mem Prod.snd rest s0
    exact hnames' _ hmem hgc
  · intro hz
    rw [h3, if_pos hz]

/-- Claim C4 witness: a concrete statement with all 7 scores zero is classified as
`General conversation`. -/
theorem C4_witness : detectIntent "xyz qwt" = "General conversation" := by
  rw [(C4_intent_scoring "xyz qwt").2.2]
  decide

/-- Claim C5: input whose stripped length is below 3 (including empty and
whitespace-only text) short-circuits `analyze_sentiment` to the fixed neutral
record with confidence 0.0, for every classifier — i.e. without consulting the
external classifier. -/
theorem C5_short_input_neutral (text : String) (h : (pyStrip text).length < 3)
    (classifier : String → String × ℚ) :
    analyzeSentiment classifier text
      = { sentiment := "Neutral", confidence := 0, raw_label := "NEUTRAL",
          raw_score := 0 } := by
  unfold analyzeSentiment
  rw [if_pos (Or.inr h)]

/-- Claim C5 witness: whitespace-only input yields the neutral record even for a
classifier that would report NEGATIVE with full confidence. -/
theorem C5_witness :
    analyzeSentiment (fun _ => ("NEGATIVE", 1)) "  "
      = { sentiment := "Neutral", confidence := 0, raw_label := "NEUTRAL",
          raw_score := 0 } :=
  C5_short_input_neutral "  " (by decide) _

/-- Claim C6 counterexample: on the text `"i feel fine"` (no `examination`
substring) the Objective `Physical_Exam` field is not empty — it carries the
fixed fallback `"Physical examination completed"` — so the claim that no exam
section text is emitted is false as stated. -/
theorem C6_counterexample :
    strIn "examination" (pyLower "i feel fine") = false
    ∧ (extractObjective "i feel fine").Physical_Exam ≠ ""
    ∧ (extractObjective "i feel fine").Physical_Exam = "Physical examination completed" :=
  ⟨by decide, by decide, by decide⟩

/-- Claim C6 (amended): when the lowercased text does not contain `examination`,
no individual exam finding is produced (the findings list is empty) and the
`Physical_Exam` field equals the constant fallback
`"Physical examination completed"` rather than being empty. -/
theorem C6_exam_gate (text : String) (h : strIn "examination" (pyLower text) = false) :
    examFindings text = []
    ∧ (extractObjective text).Physical_Exam = "Physical examination completed" := by
  have hp : strIn "physical examination" (pyLower text) = false := by
    cases hc : strIn "physical examination" (pyLower text)
    · rfl
    · exact absurd (strIn_examination_of_physical _ hc) (by simp [h])
  have hf : examFindings text = [] := by
    unfold examFindings
    simp [h, hp]
  refine ⟨hf, ?_⟩
  unfold extractObjective extractPhysicalExam
  simp [hf]

/-- Claim C6 witness: a concrete examination-free text produces no findings and
falls back to the constant string. -/
theorem C6_witness :
    examFindings "all good" = []
    ∧ (extractObjective "all good").Physical_Exam = "Physical examination completed" :=
  C6_exam_gate "all good" (by decide)

/-- Claim C7: patient-name extraction consults the title pattern first — whenever
it matches, the result comes from it and the loop result is unchanged whatever
matcher sits in the second slot (a later pattern is never consulted) — and falls
through to the `My name is` pattern, yielding `None` without any exception path
when neither pattern matches. -/
theorem C7_name_pattern_order (text : String) (q : String → Option String) :
    (∀ r, titleMatcher text = some r →
        extractPatientName text = some r
        ∧ List.findSome? (fun p => p text) [titleMatcher, q] = some r)
    ∧ (titleMatcher text = none → extractPatientName text = myNameMatcher text)
    ∧ (titleMatcher text = none → myNameMatcher text = none →
        extractPatientName text = none) := by
  refine ⟨?_, ?_, ?_⟩
  · intro r hr
    constructor
    · unfold extractPatientName
      simp [List.findSome?, hr]
    · simp [List.findSome?, hr]
  · intro hn
    unfold extractPatientName
    cases hm : myNameMatcher text <;> simp [List.findSome?, hn, hm]
  · intro hn hm
    unfold extractPatientName
    simp [List.findSome?, hn, hm]

/-- Claim C7 witness: on `"Ms. Jones was here"` the title pattern fires and the
second pattern slot is never consulted (here it is a stub returning a sentinel). -/
theorem C7_witness :
    extractPatientName "Ms. Jones was here" = some "Ms. Jones"
    ∧ List.findSome? (fun p => p "Ms. Jones was here")
        [titleMatcher, fun _ => some "UNUSED"] = some "Ms. Jones" :=
  (C7_name_pattern_order "Ms. Jones was here" (fun _ => some "UNUSED")).1 "Ms. Jones"
    (by decide)

/-- Claim C8: `treatment_duration` is the collect-all pass: the field holds one
formatted entry per scanner match of the duration regex, in scan order over the
lowered text; it is absent exactly when no start position admits a match; and its
first entry comes from the leftmost matching position. -/
theorem C8_duration_collect_all (text : String) :
    (extractTemporalInfo text).treatment_duration
      = (if findAllDur (pyLower text).data = [] then none
         else some ((findAllDur (pyLower text).data).map fmtDur))
    ∧ (findAllDur (pyLower text).data = []
        ↔ ∀ i, durMatchAt (pyLower text).data i = none)
    ∧ (∀ n u rest, findAllDur (pyLower text).data = (n, u) :: rest →
        ∃ j e, durMatchAt (pyLower text).data j = some (n, u, e)
          ∧ ∀ k, k < j → durMatchAt (pyLower text).data k = none) := by
  refine ⟨rfl, ?_, ?_⟩
  · have h := findAllDurGo_empty_iff (pyLower text).data (pyLower text).data.length 0
      (by omega)
    constructor
    · intro he i
      exact h.mp he i (Nat.zero_le i)
    · intro hall
      exact h.mpr (fun j _ => hall j)
  · intro n u rest h
    obtain ⟨j, e, _, hmj, hnone⟩ :=
      findAllDurGo_head (pyLower text).data (pyLower text).data.length 0 n u rest h
    exact ⟨j, e, hmj, fun k hk => hnone k (by omega) hk⟩

/-- Claim C8 witness: a text with two duration occurrences collects both entries
in order (note the singular-first alternation records `3 days` as `3 day`), and
the first entry comes from the leftmost match. -/
theorem C8_witness :
    (extractTemporalInfo "3 days and 2 weeks").treatment_duration
        = some ["3 day", "2 week"]
    ∧ (∃ j e, durMatchAt (pyLower "3 days and 2 weeks").data j = some ("3", "day", e)
        ∧ ∀ k, k < j → durMatchAt (pyLower "3 days and 2 weeks").data k = none) := by
  constructor
  · rw [(C8_duration_collect_all "3 days and 2 weeks").1]
    decide
  · exact (C8_duration_collect_all "3 days and 2 weeks").2.2 "3" "day" [("2", "week")]
      (by decide)

/-- Claim C9: each of the four entity lists is strictly sorted in code-point
lexicographic order and duplicate-free; the result is invariant under permuting
the phrase-matcher span list (so it does not depend on the declaration order of
catalog phrases); and re-running the extraction on the same input yields the
identical result. -/
theorem C9_entity_sets (spans spans' : List (MatchLabel × String)) (sents : List String)
    (hperm : List.Perm spans' spans) :
    ((extractEntities spans sents).symptoms.Sorted strLtR
      ∧ (extractEntities spans sents).treatments.Sorted strLtR
      ∧ (extractEntities spans sents).diagnosis.Sorted strLtR
      ∧ (extractEntities spans sents).prognosis.Sorted strLtR)
    ∧ ((extractEntities spans sents).symptoms.Nodup
      ∧ (extractEntities spans sents).treatments.Nodup
      ∧ (extractEntities spans sents).diagnosis.Nodup
      ∧ (extractEntities spans sents).prognosis.Nodup)
    ∧ extractEntities spans' sents = extractEntities spans sents
    ∧ extractEntities spans sents = extractEntities spans sents := by
  refine ⟨⟨sortedSet_sorted_lt _, sortedSet_sorted_lt _, sortedSet_sorted_lt _,
      sortedSet_sorted_lt _⟩,
    ⟨sortedSet_nodup _, sortedSet_nodup _, sortedSet_nodup _, sortedSet_nodup _⟩,
    ?_, rfl⟩
  have e1 := sortedSet_perm_inv _ _
    (hperm.filterMap (fun m => if m.1 = MatchLabel.SYMPTOM then some (pyLower m.2) else none))
  have e2 := sortedSet_perm_inv _ _
    (hperm.filterMap (fun m => if m.1 = MatchLabel.TREATMENT then some (pyLower m.2) else none))
  have e3 := sortedSet_perm_inv _ _
    (hperm.filterMap (fun m => if m.1 = MatchLabel.DIAGNOSIS then some (pyLower m.2) else none))
  unfold extractEntities
  simp only [e1, e2, e3]

/-- Claim C9 witness: swapping two matcher spans leaves the entity sets
unchanged. -/
theorem C9_witness :
    extractEntities [(MatchLabel.DIAGNOSIS, "Whiplash"), (MatchLabel.SYMPTOM, "Pain")] ["ok"]
      = extractEntities [(MatchLabel.SYMPTOM, "Pain"), (MatchLabel.DIAGNOSIS, "Whiplash")]
          ["ok"] :=
  (C9_entity_sets _ _ _ (List.Perm.swap _ _ _)).2.2.1

/-- Claim C10: for text that survives the short-input guard, the `confidence`
field equals the raw classifier score (of the 512-character truncation) rounded to
3 decimals, always equals the `raw_score` field, and the mapped sentiment label is
computed independently of both — so a lexicon-overridden label still carries the
unrelated classifier confidence. -/
theorem C10_confidence_raw (classifier : String → String × ℚ) (text : String)
    (h : 3 ≤ (pyStrip text).length) :
    (analyzeSentiment classifier text).confidence
        = pyRound3 (classifier (pyTake 512 text)).2
    ∧ (analyzeSentiment classifier text).raw_score
        = (analyzeSentiment classifier text).confidence
    ∧ (analyzeSentiment classifier text).sentiment
        = mapToMedicalSentiment (classifier (pyTake 512 text)).1
            (classifier (pyTake 512 text)).2 text := by
  have hcond : ¬(text = "" ∨ (pyStrip text).length < 3) := by
    rintro (rfl | hlt)
    · rw [pyStrip_empty] at h
      exact absurd h (by decide)
    · omega
  unfold analyzeSentiment
  rw [if_neg hcond]
  exact ⟨rfl, rfl, rfl⟩

/-- Claim C10 witness: a constant classifier on a concrete text; the confidence
field is the rounded raw score. -/
theorem C10_witness :
    (analyzeSentiment (fun _ => ("POSITIVE", mkRat 7 10)) "hello world").confidence
      = pyRound3 ((fun _ : String => ("POSITIVE", mkRat 7 10)) (pyTake 512 "hello world")).2 :=
  (C10_confidence_raw _ "hello world" (by decide)).1
